import Mathlib

/-
  Verification of the discovery subsystem of fabric-sdk-node.

  The repository material under src consists of the fabric-network type
  declarations and the unit-test file for lib/Discovery.js; the Discovery
  implementation itself is not present.  The definitions below are therefore
  modelled from the specification (spec.md), with every observable behavior
  pinned by the unit tests in src (exact thrown messages, default-option
  behavior, scheme-override precedence) taken from those tests, which are
  code of this repository.  Leading underscores of method names such as
  _buildUrl are dropped.
-/

namespace FabricDiscovery

/-- Modelled from the spec: a dynamic JavaScript value as far as interest
validation distinguishes it (lib/Discovery.js is missing from src).  vstr is
a string value; vobj stands for any non-string value (object, number, and so
on), matching the malformed inputs used by the unit tests. -/
inductive JVal where
  | vstr (s : String)
  | vobj
deriving DecidableEq

/-- Modelled from the spec: the collection_names field of an interest entry,
which is either a proper array of values or some non-array value. -/
inductive CollNames where
  | arr (xs : List JVal)
  | nonArr
deriving DecidableEq

/-- Modelled from the spec: one entry of a DiscoveryInterest as the caller
supplies it, before validation. -/
structure InterestEntry where
  name : JVal
  collectionNames : Option CollNames
deriving DecidableEq

/-- Modelled from the spec: one validated chaincode call of the protocol
chaincode-interest message. -/
structure ChaincodeCall where
  name : String
  collectionNames : List String
deriving DecidableEq

/-- The string carried by an interest entry whose name is a string, and the
empty string otherwise; used only to state order preservation. -/
def entryNameStr (e : InterestEntry) : String :=
  match e.name with
  | .vstr s => s
  | .vobj => ""

/-- Whether a dynamic value is a string. -/
def jvalIsStr : JVal → Bool
  | .vstr _ => true
  | .vobj => false

/-- Modelled from the spec: validation of the elements of a collection-name
array; the first non-string element aborts with the message the unit tests
expect. -/
def collectStrings : List JVal → Except String (List String)
  | [] => .ok []
  | .vstr s :: rest =>
    match collectStrings rest with
    | .error msg => .error msg
    | .ok r => .ok (s :: r)
  | .vobj :: _ => .error "The collection name must be a string"

/-- Modelled from the spec: validation of a single interest entry into a
chaincode call (part of Discovery._buildProtoChaincodeInterest, missing from
src).  Error messages are the ones asserted by the unit tests. -/
def buildCall (e : InterestEntry) : Except String ChaincodeCall :=
  match e.name with
  | .vobj => .error "Chaincode name must be a string"
  | .vstr nm =>
    match e.collectionNames with
    | none => .ok ⟨nm, []⟩
    | some .nonArr => .error "Collection names must be an array of strings"
    | some (.arr xs) =>
      match collectStrings xs with
      | .error msg => .error msg
      | .ok cs => .ok ⟨nm, cs⟩

/-- Modelled from the spec: Discovery._buildProtoChaincodeInterest (missing
from src).  Entries are validated and kept in caller order; duplicate
chaincode names are not merged. -/
def buildProtoChaincodeInterest : List InterestEntry → Except String (List ChaincodeCall)
  | [] => .ok []
  | e :: rest =>
    match buildCall e with
    | .error msg => .error msg
    | .ok c =>
      match buildProtoChaincodeInterest rest with
      | .error msg => .error msg
      | .ok cs => .ok (c :: cs)

/-- An interest entry that passes validation: a string name, and collection
names absent or an array with all elements strings. -/
def entryWellFormed (e : InterestEntry) : Bool :=
  jvalIsStr e.name &&
  (match e.collectionNames with
   | none => true
   | some (.arr xs) => xs.all jvalIsStr
   | some .nonArr => false)

/-- Modelled from the spec: the signing identity context, reduced to the MSP
id the request builder records. -/
structure IdContext where
  mspid : String
deriving DecidableEq

/-- Modelled from the spec: an endorsement context from which an interest can
be derived when no explicit interest is given. -/
structure EndorsementCtx where
  chaincodeName : String
  collectionNames : List String
deriving DecidableEq

/-- Modelled from the spec: the options object of Discovery.build.  The
source key named local is rendered localQuery. -/
structure BuildOptions where
  config : Bool
  localQuery : Bool
  endorsement : Option EndorsementCtx
  interest : Option (List InterestEntry)
deriving DecidableEq

/-- Modelled from the spec: one action selected by the discovery request. -/
inductive QueryAction where
  | configQuery
  | localQuery
  | chaincodeQuery (calls : List ChaincodeCall)
deriving DecidableEq

/-- Modelled from the spec: the built, unsigned discovery payload. -/
structure DiscoveryPayload where
  mspid : String
  actions : List QueryAction
deriving DecidableEq

/-- Modelled from the spec: the default request options used when build is
called with no options object; the unit tests show such a call succeeds, so
the defaults select an action (a config query). -/
def defaultBuildOptions : BuildOptions :=
  { config := true, localQuery := false, endorsement := none, interest := none }

/-- True when none of config, local, endorsement or interest is set, with an
empty interest list counted as unset (a false-like value). -/
def noInterest (o : BuildOptions) : Bool :=
  !o.config && !o.localQuery && o.endorsement.isNone &&
    (match o.interest with
     | none => true
     | some [] => true
     | some (_ :: _) => false)

/-- Modelled from the spec: Discovery.build (missing from src).  Requires an
identity context; with the options object absent the defaults are used (the
unit tests show build with no options succeeds); with an options object in
which nothing is selected it fails with the NoInterestProvided message; an
endorsement context without an explicit interest derives the interest from
that context. -/
def build (idContext : Option IdContext) (options : Option BuildOptions) :
    Except String DiscoveryPayload :=
  match idContext with
  | none => .error "Missing idContext parameter"
  | some idc =>
    let o := options.getD defaultBuildOptions
    if noInterest o then .error "No discovery interest provided"
    else
      let interestEntries : List InterestEntry :=
        match o.interest with
        | some (e :: es) => e :: es
        | _ =>
          match o.endorsement with
          | some e => [⟨.vstr e.chaincodeName, some (.arr (e.collectionNames.map JVal.vstr))⟩]
          | none => []
      match buildProtoChaincodeInterest interestEntries with
      | .error msg => .error msg
      | .ok calls =>
        .ok ⟨idc.mspid,
          (if o.config then [QueryAction.configQuery] else []) ++
          (if o.localQuery then [QueryAction.localQuery] else []) ++
          (if calls.isEmpty then [] else [QueryAction.chaincodeQuery calls])⟩

/-- True exactly when an Except value is a success. -/
def exceptIsOk {α : Type} (x : Except String α) : Bool :=
  match x with
  | .ok _ => true
  | .error _ => false

/-- Modelled from the spec: a serialized peer identity, reduced to the MSP id
it decodes to. -/
structure SerializedIdentity where
  mspid : String
deriving DecidableEq

/-- Modelled from the spec: decoded membership_info of a discovered peer. -/
structure MembershipData where
  endpoint : String
deriving DecidableEq

/-- Modelled from the spec: decoded state_info of a discovered peer. -/
structure StateData where
  ledgerHeight : Nat
  chaincodes : List String
deriving DecidableEq

/-- Modelled from the spec: one raw peer entry of a membership or endorsement
response; each of the three sections may be absent. -/
structure PeerEntry where
  identity : Option SerializedIdentity
  membershipInfo : Option MembershipData
  stateInfo : Option StateData
deriving DecidableEq

/-- Modelled from the spec: the processed descriptor of one discovered peer;
ledger height and chaincode list are absent when state_info was absent. -/
structure PeerDescriptor where
  mspid : String
  endpoint : String
  ledgerHeight : Option Nat
  chaincodes : List String
deriving DecidableEq

/-- Modelled from the spec: processing of one raw peer entry.  An entry with
identity and membership_info yields a descriptor even when state_info is
absent; an entry lacking identity or membership_info yields nothing. -/
def buildPeerDescriptor (e : PeerEntry) : Option PeerDescriptor :=
  match e.identity, e.membershipInfo with
  | some i, some m =>
    some { mspid := i.mspid, endpoint := m.endpoint,
           ledgerHeight := Option.map StateData.ledgerHeight e.stateInfo,
           chaincodes := match e.stateInfo with
                         | some s => s.chaincodes
                         | none => [] }
  | _, _ => none

/-- Modelled from the spec: Discovery._processPeers (missing from src),
mapping the raw peer entries of one organization to descriptors in order. -/
def processPeers (peers : List PeerEntry) : List PeerDescriptor :=
  peers.filterMap buildPeerDescriptor

/-- Modelled from the spec: the layouts field of a chaincode query result,
either a sequence of group-to-quantity mappings or some malformed value. -/
inductive LayoutsField where
  | layoutsList (ls : List (List (String × Nat)))
  | malformed
deriving DecidableEq

/-- Modelled from the spec: the content of a cc_query_res entry for one
chaincode. -/
structure CcContent where
  chaincode : String
  endorsersByGroups : List (String × List PeerEntry)
  layouts : Option LayoutsField
deriving DecidableEq

/-- Modelled from the spec: an endorsement plan for one chaincode. -/
structure EndorsementPlan where
  chaincode : String
  groups : List (String × List PeerDescriptor)
  layouts : List (List (String × Nat))
deriving DecidableEq

/-- One group-to-quantity requirement is satisfiable when the group exists
and holds at least the required number of peers. -/
def layoutEntryOk (groups : List (String × List PeerDescriptor)) (entry : String × Nat) : Bool :=
  match groups.lookup entry.1 with
  | some peers => entry.2 ≤ peers.length
  | none => false

/-- A layout is usable when all of its requirements are satisfiable. -/
def layoutOk (groups : List (String × List PeerDescriptor))
    (layout : List (String × Nat)) : Bool :=
  layout.all (layoutEntryOk groups)

/-- The layouts section is absent, empty, or structurally malformed. -/
def layoutsInvalid (q : Option CcContent) : Bool :=
  match q with
  | none => true
  | some c =>
    match c.layouts with
    | none => true
    | some .malformed => true
    | some (.layoutsList []) => true
    | some (.layoutsList (_ :: _)) => false

/-- Modelled from the spec: Discovery._processChaincode (missing from src).
An absent input or an absent, empty or malformed layouts section fails with
the message the unit tests expect; otherwise the groups are decoded as in
membership processing and unusable layouts are excluded from the plan. -/
def processChaincode (q : Option CcContent) : Except String EndorsementPlan :=
  match q with
  | none => .error "Plan layouts are invalid"
  | some c =>
    match c.layouts with
    | none => .error "Plan layouts are invalid"
    | some .malformed => .error "Plan layouts are invalid"
    | some (.layoutsList []) => .error "Plan layouts are invalid"
    | some (.layoutsList (l :: ls)) =>
      let groups := c.endorsersByGroups.map (fun g => (g.1, processPeers g.2))
      .ok ⟨c.chaincode, groups, (l :: ls).filter (layoutOk groups)⟩

/-- Modelled from the spec: the MSP definition material the config processor
copies, reduced to the fields the claims touch. -/
structure MspDef where
  id : String
  name : String
  tlsRootCerts : String
  tlsIntermediateCerts : String
deriving DecidableEq

/-- Modelled from the spec: one entry of the per-target result list, tagged
with its declared result kind. -/
inductive DResult where
  | errorResult (content : String)
  | configResult (msps : List (String × MspDef)) (orderers : List (String × List (String × Nat)))
  | membersResult (peersByOrg : List (String × List PeerEntry))
  | ccQueryRes (content : List CcContent)
deriving DecidableEq

/-- The content of the first embedded error entry of a result list, when
one is present. -/
def firstErrorContent : List DResult → Option String
  | [] => none
  | .errorResult c :: _ => some c
  | _ :: rest => firstErrorContent rest

/-- Modelled from the spec: the outcome of one target on one send attempt.
errVal covers a call that throws or resolves to an error value; malformed
covers a response with no usable result list; resultList is a response
carrying a result list. -/
inductive TargetResponse where
  | errVal (msg : String)
  | malformed
  | resultList (rs : List DResult)
deriving DecidableEq

/-- A target outcome that the send loop passes over and continues from. -/
def skippable : TargetResponse → Bool
  | .errVal _ => true
  | .malformed => true
  | .resultList rs => rs.isEmpty

/-- The message of the last target that threw or resolved to an error value,
when one exists; the send loop keeps the most recent such message. -/
def lastRecordedError : List TargetResponse → Option String
  | [] => none
  | .errVal m :: rest =>
      some (match lastRecordedError rest with
            | some m2 => m2
            | none => m)
  | _ :: rest => lastRecordedError rest

/-- Modelled from the spec: the sequential target loop of Discovery.send
(missing from src).  A thrown or error-valued outcome is recorded and the
next target is tried; an empty or malformed response is passed over; the
first non-empty result list ends the loop, failing immediately with a
session-prefixed message when it embeds an error entry, succeeding
otherwise; on exhaustion the last recorded error is surfaced, and with no
recorded error the DiscoveryFailed message is used. -/
def sendLoop (name : String) (recorded : Option String) :
    List TargetResponse → Except String (List DResult)
  | [] =>
    match recorded with
    | some m => .error m
    | none => .error "Discovery has failed to return results"
  | t :: rest =>
    match t with
    | .errVal m => sendLoop name (some m) rest
    | .malformed => sendLoop name recorded rest
    | .resultList [] => sendLoop name recorded rest
    | .resultList (r :: rs) =>
      match firstErrorContent (r :: rs) with
      | some c => .error ("Discovery: " ++ name ++ " error: " ++ c)
      | none => .ok (r :: rs)

/-- Modelled from the spec: Discovery.send (missing from src), reduced to
target fan-out and response validation; the accepted result list is what is
handed to the three processors. -/
def send (name : String) (targets : Option (List TargetResponse)) :
    Except String (List DResult) :=
  match targets with
  | none => .error "Missing targets parameter"
  | some ts =>
    if ts.isEmpty then .error "Missing targets parameter"
    else sendLoop name none ts

/-- Modelled from the spec: the endpoint of the current target, reduced to
whether its scheme is the secure one. -/
structure TargetEndpoint where
  isTLS : Bool
deriving DecidableEq

/-- Modelled from the spec: the state Discovery._buildUrl consults — the
as-localhost flag, the current target and the global configuration override
discovery-override-protocol. -/
structure UrlSettings where
  asLocalhost : Bool
  currentTarget : Option TargetEndpoint
  overrideProtocol : Option String
deriving DecidableEq

/-- Modelled from the spec: Discovery._buildUrl (missing from src).  The host
is localhost when the as-localhost flag is set; the scheme comes from the
global override when present (the unit tests show the override wins over the
current target), else from the current target, else the secure default. -/
def buildUrl (st : UrlSettings) (hostname : Option String) (port : Option Nat) :
    Except String String :=
  match hostname with
  | none => .error "Missing hostname parameter"
  | some h =>
    match port with
    | none => .error "Missing port parameter"
    | some p =>
      let host := if st.asLocalhost then "localhost" else h
      let protocol :=
        match st.overrideProtocol with
        | some o => o
        | none =>
          match st.currentTarget with
          | some ep => if ep.isTLS then "grpcs" else "grpc"
          | none => "grpcs"
      .ok (protocol ++ "://" ++ host ++ ":" ++ toString p)

/-- The URL the amended claim C2 predicts: the scheme is chosen by the
precedence global override, then current target, then secure default, and
the as-localhost flag substitutes localhost for the host. -/
def buildUrlSpec (st : UrlSettings) (h : String) (p : Nat) : String :=
  let scheme :=
    match st.overrideProtocol, st.currentTarget with
    | some o, _ => o
    | none, some ep => if ep.isTLS then "grpcs" else "grpc"
    | none, none => "grpcs"
  let host := if st.asLocalhost then "localhost" else h
  scheme ++ "://" ++ host ++ ":" ++ toString p

/-- Modelled from the spec: the cached result set with its timestamp. -/
structure CachedResults where
  timestamp : Nat
  entries : List DResult
deriving DecidableEq

/-- Modelled from the spec: the mutable session state the cached-result
accessor consults. -/
structure SessionState where
  name : String
  discoveryResults : Option CachedResults
deriving DecidableEq

/-- The decision of the cached-result accessor: return the cached object
unchanged, or trigger a new send. -/
inductive ResultsOutcome where
  | cached (r : CachedResults)
  | resendTriggered
deriving DecidableEq

/-- Modelled from the spec: Discovery.getDiscoveryResults (missing from src).
With no cached results it fails; with the refresh flag set and the cached
timestamp older than the refresh age it triggers a new send; otherwise the
identical cached object is returned and no send occurs. -/
def getDiscoveryResults (s : SessionState) (refresh : Bool)
    (now refreshAge : Nat) : Except String ResultsOutcome :=
  match s.discoveryResults with
  | none => .error "No discovery results found"
  | some r =>
    if refresh ∧ refreshAge < now - r.timestamp then .ok .resendTriggered
    else .ok (.cached r)

/-- Modelled from the spec: the channel a discovery session belongs to. -/
structure ChannelRef where
  name : String
deriving DecidableEq

/-- Modelled from the spec: a constructed discovery session object. -/
structure DiscoveryService where
  type : String
  name : String
  channel : ChannelRef
deriving DecidableEq

/-- Modelled from the spec: the Discovery constructor (missing from src),
which requires a name and then a channel, as the unit tests assert. -/
def newDiscovery (name : Option String) (channel : Option ChannelRef) :
    Except String DiscoveryService :=
  match name with
  | none => .error "Missing name parameter"
  | some n =>
    match channel with
    | none => .error "Missing channel parameter"
    | some ch => .ok ⟨"Discovery", n, ch⟩

theorem collectStrings_vstr_append_vobj (strs : List String) (more : List JVal) :
    collectStrings (strs.map JVal.vstr ++ .vobj :: more) =
      .error "The collection name must be a string" := by
  induction strs with
  | nil => rfl
  | cons s rest ih => simp [collectStrings, ih]

theorem collectStrings_all_str (xs : List JVal) (h : xs.all jvalIsStr = true) :
    ∃ r, collectStrings xs = .ok r := by
  induction xs with
  | nil => exact ⟨[], rfl⟩
  | cons x rest ih =>
    simp only [List.all_cons, Bool.and_eq_true] at h
    obtain ⟨r, hr⟩ := ih h.2
    cases x with
    | vstr s => exact ⟨s :: r, by simp [collectStrings, hr]⟩
    | vobj => simp [jvalIsStr] at h

theorem entryWellFormed_buildCall_ok (e : InterestEntry)
    (h : entryWellFormed e = true) : ∃ c, buildCall e = .ok c := by
  rcases e with ⟨nm, cns⟩
  cases nm with
  | vobj => simp [entryWellFormed, jvalIsStr] at h
  | vstr s =>
    cases cns with
    | none => exact ⟨⟨s, []⟩, rfl⟩
    | some cn =>
      cases cn with
      | nonArr => simp [entryWellFormed] at h
      | arr xs =>
        simp only [entryWellFormed, jvalIsStr, Bool.true_and] at h
        obtain ⟨r, hr⟩ := collectStrings_all_str xs h
        exact ⟨⟨s, r⟩, by simp [buildCall, hr]⟩

theorem buildCall_name_eq (e : InterestEntry) (c : ChaincodeCall)
    (h : buildCall e = .ok c) : c.name = entryNameStr e := by
  rcases e with ⟨nm, cns⟩
  cases nm with
  | vobj => simp [buildCall] at h
  | vstr s =>
    cases cns with
    | none =>
      simp only [buildCall] at h
      cases h
      rfl
    | some cn =>
      cases cn with
      | nonArr => simp [buildCall] at h
      | arr xs =>
        simp only [buildCall] at h
        cases hcs : collectStrings xs with
        | error msg => rw [hcs] at h; cases h
        | ok r =>
          rw [hcs] at h
          cases h
          rfl

theorem buildProto_prefix_error (pre : List InterestEntry)
    (hpre : ∀ e ∈ pre, entryWellFormed e = true)
    (bad : InterestEntry) (msg : String) (hbad : buildCall bad = .error msg)
    (rest : List InterestEntry) :
    buildProtoChaincodeInterest (pre ++ bad :: rest) = .error msg := by
  induction pre with
  | nil => simp [buildProtoChaincodeInterest, hbad]
  | cons e pre ih =>
    obtain ⟨c, hc⟩ := entryWellFormed_buildCall_ok e (hpre e (by simp))
    have htail := ih (fun x hx => hpre x (by simp [hx]))
    simp [buildProtoChaincodeInterest, hc, htail]

/-- C7 counterexample: a non-string chaincode name is rejected with a
capitalized message, not the lowercase message the claim states. -/
theorem claim7_counterexample :
    buildProtoChaincodeInterest [⟨.vobj, none⟩] =
      .error "Chaincode name must be a string" ∧
    "Chaincode name must be a string" ≠ "chaincode name must be a string" :=
  ⟨rfl, by decide⟩

/-- C7 amended: with any prefix of well-formed entries, an entry whose name is
not a string fails construction with the message Chaincode name must be a
string; an entry whose collection names are present but not a sequence fails
with Collection names must be an array of strings; an entry whose collection
sequence holds a non-string element fails with The collection name must be a
string. -/
theorem claim7_amended (pre : List InterestEntry)
    (hpre : ∀ e ∈ pre, entryWellFormed e = true) (rest : List InterestEntry) :
    (∀ cns : Option CollNames,
      buildProtoChaincodeInterest (pre ++ ⟨.vobj, cns⟩ :: rest) =
        .error "Chaincode name must be a string") ∧
    (∀ nm : String,
      buildProtoChaincodeInterest (pre ++ ⟨.vstr nm, some .nonArr⟩ :: rest) =
        .error "Collection names must be an array of strings") ∧
    (∀ (nm : String) (strs : List String) (more : List JVal),
      buildProtoChaincodeInterest
          (pre ++ ⟨.vstr nm, some (.arr (strs.map JVal.vstr ++ .vobj :: more))⟩ :: rest) =
        .error "The collection name must be a string") := by
  refine ⟨fun cns => ?_, fun nm => ?_, fun nm strs more => ?_⟩
  · exact buildProto_prefix_error pre hpre ⟨.vobj, cns⟩
      "Chaincode name must be a string" rfl rest
  · exact buildProto_prefix_error pre hpre ⟨.vstr nm, some .nonArr⟩
      "Collection names must be an array of strings" rfl rest
  · refine buildProto_prefix_error pre hpre _ _ ?_ rest
    simp [buildCall, collectStrings_vstr_append_vobj]

/-- C7 witness: the three malformed interest shapes at concrete inputs, the
first behind a well-formed leading entry. -/
theorem claim7_amended_witness :
    buildProtoChaincodeInterest
        [⟨.vstr "chaincode1", some (.arr [.vstr "collection1"])⟩, ⟨.vobj, none⟩] =
      .error "Chaincode name must be a string" ∧
    buildProtoChaincodeInterest [⟨.vstr "chaincode1", some .nonArr⟩] =
      .error "Collection names must be an array of strings" ∧
    buildProtoChaincodeInterest [⟨.vstr "chaincode1", some (.arr [.vobj])⟩] =
      .error "The collection name must be a string" :=
  ⟨(claim7_amended [⟨.vstr "chaincode1", some (.arr [.vstr "collection1"])⟩]
      (by decide) []).1 none,
   (claim7_amended [] (by decide) []).2.1 "chaincode1",
   (claim7_amended [] (by decide) []).2.2 "chaincode1" [] []⟩

/-- C8: a successful chaincode-interest construction yields exactly one output
entry per input entry, with the chaincode names in the declared order, so two
entries sharing a name stay two separate entries and nothing is merged. -/
theorem claim8_no_dedup (interest : List InterestEntry) (l : List ChaincodeCall)
    (h : buildProtoChaincodeInterest interest = .ok l) :
    l.length = interest.length ∧
    l.map ChaincodeCall.name = interest.map entryNameStr := by
  induction interest generalizing l with
  | nil =>
    simp only [buildProtoChaincodeInterest] at h
    cases h
    simp
  | cons e rest ih =>
    simp only [buildProtoChaincodeInterest] at h
    cases hc : buildCall e with
    | error msg => rw [hc] at h; cases h
    | ok c =>
      rw [hc] at h
      cases hr : buildProtoChaincodeInterest rest with
      | error msg => rw [hr] at h; cases h
      | ok cs =>
        rw [hr] at h
        cases h
        obtain ⟨ih1, ih2⟩ := ih cs hr
        refine ⟨by simp [ih1], ?_⟩
        simp [ih2, buildCall_name_eq e c hc]

/-- C8 witness: two entries with the same chaincode name produce two preserved
entries in order. -/
theorem claim8_no_dedup_witness :
    ([⟨"chaincode1", []⟩, ⟨"chaincode1", []⟩] : List ChaincodeCall).length =
      ([⟨.vstr "chaincode1", none⟩, ⟨.vstr "chaincode1", none⟩] :
        List InterestEntry).length ∧
    ([⟨"chaincode1", []⟩, ⟨"chaincode1", []⟩] : List ChaincodeCall).map
        ChaincodeCall.name =
      ([⟨.vstr "chaincode1", none⟩, ⟨.vstr "chaincode1", none⟩] :
        List InterestEntry).map entryNameStr :=
  claim8_no_dedup [⟨.vstr "chaincode1", none⟩, ⟨.vstr "chaincode1", none⟩]
    [⟨"chaincode1", []⟩, ⟨"chaincode1", []⟩] rfl

/-- C3 counterexample: build with an identity context and no options at all
succeeds using the default options instead of failing with the
no-interest-provided error. -/
theorem claim3_counterexample :
    build (some ⟨"mspid"⟩) none = .ok ⟨"mspid", [QueryAction.configQuery]⟩ ∧
    exceptIsOk (build (some ⟨"mspid"⟩) none) = true :=
  ⟨rfl, rfl⟩

/-- C3 amended: build fails with the no-interest-provided message whenever an
options object is supplied in which config, local and endorsement are unset
and the interest is absent or empty; with the options omitted entirely the
defaults select an action and build succeeds. -/
theorem claim3_amended (idc : IdContext) (o : BuildOptions)
    (h1 : o.config = false) (h2 : o.localQuery = false)
    (h3 : o.endorsement = none)
    (h4 : o.interest = none ∨ o.interest = some []) :
    build (some idc) (some o) = .error "No discovery interest provided" := by
  have hn : noInterest o = true := by
    rcases h4 with h4 | h4 <;> simp [noInterest, h1, h2, h3, h4]
  simp [build, hn]

/-- C3 witness: an options object selecting nothing fails with the
no-interest-provided message. -/
theorem claim3_amended_witness :
    build (some ⟨"mspid"⟩) (some ⟨false, false, none, none⟩) =
      .error "No discovery interest provided" :=
  claim3_amended ⟨"mspid"⟩ ⟨false, false, none, none⟩ rfl rfl rfl (Or.inl rfl)

/-- C10: constructing a discovery session with no name throws the missing-name
message; with a name but no channel it throws the missing-channel message; with
both supplied construction succeeds and the resulting object has type
Discovery. -/
theorem claim10_constructor :
    (∀ ch : Option ChannelRef, newDiscovery none ch = .error "Missing name parameter") ∧
    (∀ nm : String, newDiscovery (some nm) none = .error "Missing channel parameter") ∧
    (∀ (nm : String) (ch : ChannelRef),
      newDiscovery (some nm) (some ch) = .ok ⟨"Discovery", nm, ch⟩) :=
  ⟨fun _ => rfl, fun _ => rfl, fun _ _ => rfl⟩

/-- C2 counterexample: with a current target whose scheme is insecure and the
global override set to grpcs, buildUrl returns the override scheme, not the
current-target scheme the claimed precedence order predicts. -/
theorem claim2_counterexample :
    buildUrl ⟨false, some ⟨false⟩, some "grpcs"⟩ (some "hostname") (some 1000) =
      .ok "grpcs://hostname:1000" ∧
    "grpcs://hostname:1000" ≠ "grpc://hostname:1000" :=
  ⟨rfl, by decide⟩

/-- C2 amended: the returned URL follows the precedence global configuration
override first, then the current-target scheme, then the secure default, with
the as-localhost flag substituting localhost for the host and the port kept as
given. -/
theorem claim2_amended (st : UrlSettings) (h : String) (p : Nat) :
    buildUrl st (some h) (some p) = .ok (buildUrlSpec st h p) := by
  rcases st with ⟨al, ct, op⟩
  cases op <;> cases ct <;> simp [buildUrl, buildUrlSpec]

/-- C5: an endorsement-plan processing call whose input has an absent, empty,
or structurally malformed layouts section fails with the invalid-plan-layouts
message rather than producing a plan. -/
theorem claim5_invalid_layouts (q : Option CcContent) (h : layoutsInvalid q = true) :
    processChaincode q = .error "Plan layouts are invalid" := by
  match q with
  | none => rfl
  | some c =>
    match hc : c.layouts with
    | none => simp [processChaincode, hc]
    | some .malformed => simp [processChaincode, hc]
    | some (.layoutsList []) => simp [processChaincode, hc]
    | some (.layoutsList (l :: ls)) => simp [layoutsInvalid, hc] at h

/-- C5 witness: an absent chaincode query result has an invalid layouts
section and processing it fails with the expected message. -/
theorem claim5_invalid_layouts_witness :
    layoutsInvalid none = true ∧
    processChaincode none = .error "Plan layouts are invalid" :=
  ⟨rfl, claim5_invalid_layouts none rfl⟩

/-- C6: a peer entry with identity and membership_info but no state_info is
still included in the output sequence at its position, with its ledger height
absent and its chaincode list empty. -/
theorem claim6_missing_state_info (pre post : List PeerEntry) (e : PeerEntry)
    (i : SerializedIdentity) (m : MembershipData)
    (h1 : e.identity = some i) (h2 : e.membershipInfo = some m)
    (h3 : e.stateInfo = none) :
    processPeers (pre ++ e :: post) =
      processPeers pre ++ ⟨i.mspid, m.endpoint, none, []⟩ :: processPeers post := by
  have hd : buildPeerDescriptor e = some ⟨i.mspid, m.endpoint, none, []⟩ := by
    unfold buildPeerDescriptor
    rw [h1, h2, h3]
    rfl
  simp [processPeers, List.filterMap_append, List.filterMap_cons, hd]

/-- C6 witness: a one-entry peer list whose entry lacks state_info still
yields that peer as a descriptor. -/
theorem claim6_missing_state_info_witness :
    processPeers [⟨some ⟨"msp1"⟩, some ⟨"host.com:1000"⟩, none⟩] =
      [⟨"msp1", "host.com:1000", none, []⟩] :=
  claim6_missing_state_info [] [] ⟨some ⟨"msp1"⟩, some ⟨"host.com:1000"⟩, none⟩
    ⟨"msp1"⟩ ⟨"host.com:1000"⟩ rfl rfl rfl

theorem sendLoop_skip_to_error (name : String) (rs : List DResult) (c : String)
    (hc : firstErrorContent rs = some c) (rest : List TargetResponse) :
    ∀ pre : List TargetResponse, (∀ t ∈ pre, skippable t = true) →
    ∀ recorded : Option String,
      sendLoop name recorded (pre ++ .resultList rs :: rest) =
        .error ("Discovery: " ++ name ++ " error: " ++ c) := by
  intro pre
  induction pre with
  | nil =>
    intro _ recorded
    cases rs with
    | nil => simp [firstErrorContent] at hc
    | cons r rs2 => simp [sendLoop, hc]
  | cons t pre ih =>
    intro hpre recorded
    have hrest : ∀ x ∈ pre, skippable x = true := fun x hx => hpre x (by simp [hx])
    cases t with
    | errVal m => exact ih hrest (some m)
    | malformed => exact ih hrest recorded
    | resultList rs0 =>
      cases rs0 with
      | nil => exact ih hrest recorded
      | cons r0 rs1 =>
        have := hpre (.resultList (r0 :: rs1)) (by simp)
        simp [skippable] at this

theorem sendLoop_exhausted_none (name : String) :
    ∀ ts : List TargetResponse, (∀ t ∈ ts, skippable t = true) →
      lastRecordedError ts = none →
      (sendLoop name none ts = .error "Discovery has failed to return results") ∧
      (∀ m, sendLoop name (some m) ts = .error m) := by
  intro ts
  induction ts with
  | nil => exact fun _ _ => ⟨rfl, fun m => rfl⟩
  | cons t rest ih =>
    intro hsk hn
    have hrest : ∀ x ∈ rest, skippable x = true := fun x hx => hsk x (by simp [hx])
    cases t with
    | errVal m => simp [lastRecordedError] at hn
    | malformed => exact ih hrest hn
    | resultList rs0 =>
      cases rs0 with
      | nil => exact ih hrest hn
      | cons r0 rs1 =>
        have := hsk (.resultList (r0 :: rs1)) (by simp)
        simp [skippable] at this

theorem sendLoop_exhausted_some (name : String) :
    ∀ ts : List TargetResponse, (∀ t ∈ ts, skippable t = true) →
      ∀ m, lastRecordedError ts = some m →
      ∀ recorded : Option String, sendLoop name recorded ts = .error m := by
  intro ts
  induction ts with
  | nil => intro _ m hm; simp [lastRecordedError] at hm
  | cons t rest ih =>
    intro hsk m hm recorded
    have hrest : ∀ x ∈ rest, skippable x = true := fun x hx => hsk x (by simp [hx])
    cases t with
    | errVal m0 =>
      show sendLoop name (some m0) rest = .error m
      cases h2 : lastRecordedError rest with
      | some m2 =>
        have hm2 : m2 = m := by simpa [lastRecordedError, h2] using hm
        rw [← hm2]
        exact ih hrest m2 h2 (some m0)
      | none =>
        have hm0 : m0 = m := by simpa [lastRecordedError, h2] using hm
        rw [← hm0]
        exact (sendLoop_exhausted_none name rest hrest h2).2 m0
    | malformed =>
      have : lastRecordedError rest = some m := by simpa [lastRecordedError] using hm
      exact ih hrest m this recorded
    | resultList rs0 =>
      cases rs0 with
      | nil =>
        have : lastRecordedError rest = some m := by simpa [lastRecordedError] using hm
        exact ih hrest m this recorded
      | cons r0 rs1 =>
        have := hsk (.resultList (r0 :: rs1)) (by simp)
        simp [skippable] at this

/-- C1 counterexample: a target result list embedding an error with content
result error makes send fail with the session-prefixed message, which is not
the embedded content surfaced verbatim. -/
theorem claim1_counterexample :
    send "mydiscovery" (some [.resultList [.errorResult "result error"]]) =
      .error "Discovery: mydiscovery error: result error" ∧
    "Discovery: mydiscovery error: result error" ≠ "result error" :=
  ⟨rfl, by decide⟩

/-- C1 amended: when a target resolves to a result list embedding an error,
send fails immediately with the message Discovery: name error: content, the
embedded content surfaced inside a session-identifying prefix; the targets
after that one are never consulted, whatever they are. -/
theorem claim1_amended (name : String) (pre rest : List TargetResponse)
    (hpre : ∀ t ∈ pre, skippable t = true) (rs : List DResult) (c : String)
    (hc : firstErrorContent rs = some c) :
    send name (some (pre ++ .resultList rs :: rest)) =
      .error ("Discovery: " ++ name ++ " error: " ++ c) := by
  have hne : (pre ++ TargetResponse.resultList rs :: rest).isEmpty = false := by
    cases pre <;> rfl
  simp only [send, hne, Bool.false_eq_true, if_false]
  exact sendLoop_skip_to_error name rs c hc rest pre hpre none

/-- C1 witness: a skipped first target, then a result list whose second entry
embeds an error, then a further target that is never consulted. -/
theorem claim1_amended_witness :
    send "mydiscovery"
        (some [.errVal "x",
               .resultList [.membersResult [], .errorResult "result error"],
               .resultList [.ccQueryRes []]]) =
      .error "Discovery: mydiscovery error: result error" :=
  claim1_amended "mydiscovery" [.errVal "x"] [.resultList [.ccQueryRes []]]
    (by decide) [.membersResult [], .errorResult "result error"] "result error" rfl

/-- C4 counterexample: a single target that resolves to an error value leaves
the targets exhausted with no result list, yet send fails with that error
message rather than the discovery-failed message the claim states. -/
theorem claim4_counterexample :
    send "mydiscovery" (some [.errVal "forced error"]) = .error "forced error" ∧
    "forced error" ≠ "Discovery has failed to return results" :=
  ⟨rfl, by decide⟩

/-- C4 amended: send with the targets parameter absent or empty fails with the
missing-targets message; with targets all exhausted without a non-empty
well-formed result list it fails with the discovery-failed message when no
target threw or resolved to an error value, and with the last such error
message otherwise. -/
theorem claim4_amended (name : String) :
    (send name none = .error "Missing targets parameter" ∧
     send name (some []) = .error "Missing targets parameter") ∧
    (∀ ts : List TargetResponse, ts ≠ [] → (∀ t ∈ ts, skippable t = true) →
      lastRecordedError ts = none →
      send name (some ts) = .error "Discovery has failed to return results") ∧
    (∀ ts : List TargetResponse, (∀ t ∈ ts, skippable t = true) →
      ∀ m, lastRecordedError ts = some m → send name (some ts) = .error m) := by
  refine ⟨⟨rfl, rfl⟩, fun ts hne hsk hn => ?_, fun ts hsk m hm => ?_⟩
  · cases ts with
    | nil => exact absurd rfl hne
    | cons t rest =>
      have h2 := (sendLoop_exhausted_none name (t :: rest) hsk hn).1
      simpa [send] using h2
  · cases ts with
    | nil => simp [lastRecordedError] at hm
    | cons t rest =>
      have h2 := sendLoop_exhausted_some name (t :: rest) hsk m hm none
      simpa [send] using h2

/-- C4 witness: the missing-targets, exhausted-without-error and
exhausted-with-error behaviors at concrete target lists. -/
theorem claim4_amended_witness :
    send "mydiscovery" none = .error "Missing targets parameter" ∧
    send "mydiscovery" (some [.malformed]) =
      .error "Discovery has failed to return results" ∧
    send "mydiscovery" (some [.errVal "attempt error"]) = .error "attempt error" :=
  ⟨(claim4_amended "mydiscovery").1.1,
   (claim4_amended "mydiscovery").2.1 [.malformed] (by decide) (by decide) rfl,
   (claim4_amended "mydiscovery").2.2 [.errVal "attempt error"] (by decide)
     "attempt error" rfl⟩

/-- C9: the cached-result accessor fails with the no-results message when no
result is cached; with a cached result and the refresh flag off the identical
cached object is returned and no send occurs; with the cached timestamp at the
epoch, the refresh flag on and the current time past the refresh age, a new
send is triggered. -/
theorem claim9_cached_results (name : String) :
    (∀ (refresh : Bool) (now age : Nat),
      getDiscoveryResults ⟨name, none⟩ refresh now age =
        .error "No discovery results found") ∧
    (∀ (r : CachedResults) (now age : Nat),
      getDiscoveryResults ⟨name, some r⟩ false now age = .ok (.cached r)) ∧
    (∀ (r : CachedResults) (now age : Nat), r.timestamp = 0 → age < now →
      getDiscoveryResults ⟨name, some r⟩ true now age = .ok .resendTriggered) := by
  refine ⟨fun refresh now age => rfl, fun r now age => ?_, fun r now age h1 h2 => ?_⟩
  · simp [getDiscoveryResults]
  · simp [getDiscoveryResults, h1, h2]

/-- C9 witness: the three accessor behaviors at concrete session states. -/
theorem claim9_cached_results_witness :
    getDiscoveryResults ⟨"mydiscovery", none⟩ true 0 0 =
      .error "No discovery results found" ∧
    getDiscoveryResults ⟨"mydiscovery", some ⟨5, []⟩⟩ false 0 0 =
      .ok (.cached ⟨5, []⟩) ∧
    getDiscoveryResults ⟨"mydiscovery", some ⟨0, []⟩⟩ true 10 5 =
      .ok .resendTriggered :=
  ⟨(claim9_cached_results "mydiscovery").1 true 0 0,
   (claim9_cached_results "mydiscovery").2.1 ⟨5, []⟩ 0 0,
   (claim9_cached_results "mydiscovery").2.2 ⟨0, []⟩ 10 5 rfl (by decide)⟩

end FabricDiscovery
